import Mathlib

/-!
Verification of the Boyer-Moore substring searcher in
`src/Boyer_Moore/main.cpp` (class `StringFinder`).

The embedding follows the source closely:
* text and pattern (C++ `std::string`) are byte sequences, modelled as
  `List Nat` whose elements are byte values `0..255`;
* the C++ `int` values (`skip`, `p`, table entries, return value) are `Int`;
* the 256-entry array `m_lastOccurrences` is modelled as a total function
  `Nat → Int` keyed by the byte value of the character, which is the
  behaviour of the source on platforms where `char` is unsigned and the
  clearly documented intent of the 256-entry table ("Each character has
  value of -1 if not in pattern, or the position of the last occurrence of
  it in the pattern").  The char→int index conversion actually performed
  on signed-`char` platforms is modelled separately as `charIndex` and is
  analysed for the in-bounds safety claim;
* the two `while` loops of `search()` become structural recursions:
  the inner right-to-left comparison recurses on `p + 1`, and the outer
  alignment loop takes explicit fuel; `search` hands it `textSize + 1`
  units, which is shown to be enough because each iteration advances
  `skip` by at least 1 (the fuel-exhausted branch returns the same `-1`
  as the loop exit `skip > maxSkip`, so the two exits coincide).
-/

namespace BoyerMoore

/-- `const int POSSIBLE_CHARACTERS = 256`. -/
def POSSIBLE_CHARACTERS : Nat := 256

/-- One assignment `m_lastOccurrences[c] = v` on the table. -/
def writeEntry (tab : Nat → Int) (c : Nat) (v : Int) : Nat → Int :=
  fun b => if b = c then v else tab b

/-- The loop `for (int i = 0; i < m_pattern.size(); i++)
    m_lastOccurrences[m_pattern[i]] = i;` of `badCharacterPreprocessing`,
    processing the remaining pattern characters `l`, with `i` the index of
    the first character of `l` in the whole pattern. -/
def lastOccLoop : List Nat → Nat → (Nat → Int) → (Nat → Int)
  | [], _, tab => tab
  | c :: rest, i, tab => lastOccLoop rest (i + 1) (writeEntry tab c i)

/-- `StringFinder::badCharacterPreprocessing()`: fill the table with `-1`
    (the first `for` loop writes `-1` at every index), then record the
    last occurrence index of every pattern character. -/
def badCharacterPreprocessing (pattern : List Nat) : Nat → Int :=
  lastOccLoop pattern 0 (fun _ => -1)

/-- The `int` value used to subscript `m_lastOccurrences` at lines 134 and
    168 of the source: the character (a C++ `char`) converted to `int`.
    The source targets a platform on which plain `char` is signed
    (Apple clang / x86, per the file header), so a byte value `c ≥ 128`
    converts to the negative value `c - 256`. -/
def charIndex (c : Nat) : Int :=
  if c < 128 then (c : Int) else (c : Int) - 256

/-- The index actually used by the table write
    `m_lastOccurrences[ m_pattern[i] ] = i` during preprocessing. -/
def preprocessingWriteIndex (pattern : List Nat) (i : Nat) : Int :=
  charIndex (pattern.getD i 0)

/-- An index is in bounds of the 256-entry array `m_lastOccurrences`. -/
def tableIndexInBounds (i : Int) : Prop :=
  0 ≤ i ∧ i < 256

/-- The inner `while (p >= 0)` loop of `search()`: compare pattern and text
    right to left starting at pattern index `j - 1`; return the final value
    of `p`, which is the position of the bad character, or `-1` when the
    pattern was completely traversed.  (`j` is `p + 1`, so the loop is
    structural recursion on `j`.) -/
def innerLoop (text pattern : List Nat) (skip : Nat) : Nat → Int
  | 0 => -1
  | j + 1 =>
    if text.getD (skip + j) 0 ≠ pattern.getD j 0 then (j : Int)
    else innerLoop text pattern skip j

/-- The outer `while (skip <= maxSkip)` loop of `search()`.  `fuel` bounds
    the number of remaining iterations; when `fuel ≥ maxSkip + 1 - skip`
    the fuel never runs out before the loop condition fails, and the
    fuel-exhausted result `-1` agrees with the loop-exit result. -/
def searchLoop (text pattern : List Nat) (tab : Nat → Int) (maxSkip : Int) :
    Nat → Nat → Int
  | 0, _ => -1
  | fuel + 1, skip =>
    if (skip : Int) > maxSkip then -1
    else
      let p := innerLoop text pattern skip pattern.length
      if p < 0 then (skip : Int)
      else
        let update : Int := p - tab (text.getD (skip + p.toNat) 0)
        if update ≥ 1 then
          searchLoop text pattern tab maxSkip fuel (skip + update.toNat)
        else
          searchLoop text pattern tab maxSkip fuel (skip + 1)

/-- The body of `int StringFinder::search()`, as a function of the member
    variables it reads (`m_text`, `m_pattern`, `m_lastOccurrences`). -/
def searchWithTable (text pattern : List Nat) (tab : Nat → Int) : Int :=
  let textSize := text.length
  let patternSize := pattern.length
  if patternSize = 0 then -1
  else
    searchLoop text pattern tab ((textSize : Int) - (patternSize : Int))
      (textSize + 1) 0

/-- `search()` run against a text and pattern with the table freshly built
    from that pattern (the situation after construction or after any
    pattern replacement). -/
def search (text pattern : List Nat) : Int :=
  searchWithTable text pattern (badCharacterPreprocessing pattern)

/-- The member state of a `StringFinder` object.  The good-suffix members
    do not exist in the source (`goodSuffixPreprocessing` has an empty
    body and there is only a TODO comment for a member), so the state is
    exactly these three fields. -/
structure StringFinder where
  m_text : List Nat
  m_pattern : List Nat
  m_lastOccurrences : Nat → Int

/-- `StringFinder::StringFinder(string text, string pattern)`: store both
    strings and run `badCharacterPreprocessing()` (the call to
    `goodSuffixPreprocessing()` is a no-op). -/
def StringFinder.make (text pattern : List Nat) : StringFinder :=
  { m_text := text
    m_pattern := pattern
    m_lastOccurrences := badCharacterPreprocessing pattern }

/-- The value returned by a call `s.search()`. -/
def StringFinder.search (s : StringFinder) : Int :=
  searchWithTable s.m_text s.m_pattern s.m_lastOccurrences

/-- A call `s.search()` as a state transformer: the body assigns no member
    variable (it only reads them into locals), so the object state is
    returned unchanged. -/
def StringFinder.searchCall (s : StringFinder) : StringFinder × Int :=
  (s, s.search)

/-- `int StringFinder::search(string newPattern)`: overwrite `m_pattern`,
    rerun `badCharacterPreprocessing()` (and the no-op
    `goodSuffixPreprocessing()`), then `return search();`. -/
def StringFinder.searchReplace (s : StringFinder) (newPattern : List Nat) :
    StringFinder × Int :=
  let s2 : StringFinder :=
    { m_text := s.m_text
      m_pattern := newPattern
      m_lastOccurrences := badCharacterPreprocessing newPattern }
  (s2, s2.search)

/-- Specification-side predicate: the pattern matches the text at starting
    offset `s`, i.e. `t[s : s + |p|] == p` read character by character. -/
def matchAt (text pattern : List Nat) (s : Nat) : Prop :=
  s + pattern.length ≤ text.length ∧
  ∀ j < pattern.length, text.getD (s + j) 0 = pattern.getD j 0

instance matchAt.instDecidable (text pattern : List Nat) (s : Nat) :
    Decidable (matchAt text pattern s) := by
  unfold matchAt; exact instDecidableAnd

/-- Specification-side predicate: `p` is a substring of `t`. -/
def Substr (p t : List Nat) : Prop :=
  ∃ l r, t = l ++ p ++ r

/-! ### Properties of the skip table -/

/-- An entry produced by the table-filling loop is either the incoming
    entry or at least the starting index `i` (every index the loop writes
    is `≥ i`). -/
lemma lastOccLoop_eq_or_le (l : List Nat) (i : Nat) (tab : Nat → Int) (b : Nat) :
    lastOccLoop l i tab b = tab b ∨ (i : Int) ≤ lastOccLoop l i tab b := by
  induction l generalizing i tab with
  | nil => exact Or.inl rfl
  | cons c rest ih =>
    rcases ih (i + 1) (writeEntry tab c i) with h | h
    · by_cases hbc : b = c
      · right
        rw [lastOccLoop, h, writeEntry, if_pos hbc]
      · left
        rw [lastOccLoop, h, writeEntry, if_neg hbc]
    · right
      rw [lastOccLoop]
      omega

/-- Every occurrence of `b` in the remaining pattern forces the final table
    entry for `b` to be at least that occurrence's index. -/
lemma lastOccLoop_le_of_getD (l : List Nat) (b : Nat) :
    ∀ (j : Nat), j < l.length → l.getD j 0 = b →
      ∀ (i : Nat) (tab : Nat → Int), (i : Int) + j ≤ lastOccLoop l i tab b := by
  induction l with
  | nil => intro j hj; simp at hj
  | cons c rest ih =>
    intro j hj hb i tab
    match j with
    | 0 =>
      rw [lastOccLoop]
      rcases lastOccLoop_eq_or_le rest (i + 1) (writeEntry tab c i) b with h | h
      · rw [h, writeEntry, if_pos]
        · omega
        · simpa using hb.symm
      · omega
    | j + 1 =>
      rw [lastOccLoop]
      have := ih j (by simpa using hj) (by simpa using hb) (i + 1) (writeEntry tab c i)
      omega

/-- The final table entry for `b` is the incoming entry or the index of an
    actual occurrence of `b` in the remaining pattern. -/
lemma lastOccLoop_cases (l : List Nat) (i : Nat) (tab : Nat → Int) (b : Nat) :
    lastOccLoop l i tab b = tab b ∨
    ∃ j, j < l.length ∧ l.getD j 0 = b ∧
      lastOccLoop l i tab b = (i : Int) + j := by
  induction l generalizing i tab with
  | nil => exact Or.inl rfl
  | cons c rest ih =>
    rw [lastOccLoop]
    rcases ih (i + 1) (writeEntry tab c i) with h | ⟨j, hj, hb, he⟩
    · rw [h, writeEntry]
      by_cases hbc : b = c
      · rw [if_pos hbc]
        exact Or.inr ⟨0, by simp, by simp [hbc], by simp⟩
      · rw [if_neg hbc]
        exact Or.inl rfl
    · refine Or.inr ⟨j + 1, by simpa using hj, by simpa using hb, ?_⟩
      rw [he]
      omega

/-- Any occurrence of the byte `b` in the pattern lies at or before the
    table entry for `b`. -/
lemma badChar_le (pattern : List Nat) (b : Nat) (j : Nat)
    (hj : j < pattern.length) (hb : pattern.getD j 0 = b) :
    (j : Int) ≤ badCharacterPreprocessing pattern b := by
  have := lastOccLoop_le_of_getD pattern b j hj hb 0 (fun _ => -1)
  rw [badCharacterPreprocessing]
  omega

/-- The table entry for `b` is the sentinel `-1` or the index of an actual
    occurrence of `b` in the pattern. -/
lemma badChar_cases (pattern : List Nat) (b : Nat) :
    badCharacterPreprocessing pattern b = -1 ∨
    ∃ j, j < pattern.length ∧ pattern.getD j 0 = b ∧
      badCharacterPreprocessing pattern b = (j : Int) := by
  rcases lastOccLoop_cases pattern 0 (fun _ => -1) b with h | ⟨j, hj, hb, he⟩
  · exact Or.inl h
  · refine Or.inr ⟨j, hj, hb, ?_⟩
    rw [badCharacterPreprocessing, he]
    omega

/-- The table entry is never below the sentinel. -/
lemma neg_one_le_badChar (pattern : List Nat) (b : Nat) :
    -1 ≤ badCharacterPreprocessing pattern b := by
  rcases badChar_cases pattern b with h | ⟨j, _, _, he⟩ <;> omega

/-! ### Properties of the inner comparison loop -/

/-- The inner loop returns `-1` exactly when every compared position
    matches. -/
lemma innerLoop_eq_neg_one_iff (text pattern : List Nat) (skip : Nat) (j : Nat) :
    innerLoop text pattern skip j = -1 ↔
      ∀ i < j, text.getD (skip + i) 0 = pattern.getD i 0 := by
  induction j with
  | zero => simp [innerLoop]
  | succ j ih =>
    by_cases h : text.getD (skip + j) 0 = pattern.getD j 0
    · rw [innerLoop, if_neg (by simpa using h), ih]
      constructor
      · intro H i hi
        rcases Nat.lt_succ_iff_lt_or_eq.mp hi with hi | rfl
        · exact H i hi
        · exact h
      · intro H i hi
        exact H i (Nat.lt_succ_of_lt hi)
    · rw [innerLoop, if_pos (by simpa using h)]
      constructor
      · intro hj
        omega
      · intro H
        exact absurd (H j (Nat.lt_succ_self j)) h

/-- The inner loop returns `-1` (full match) or the position of a genuine
    mismatch below `j`. -/
lemma innerLoop_cases (text pattern : List Nat) (skip j : Nat) :
    innerLoop text pattern skip j = -1 ∨
    ∃ k, k < j ∧ innerLoop text pattern skip j = (k : Int) ∧
      text.getD (skip + k) 0 ≠ pattern.getD k 0 := by
  induction j with
  | zero => exact Or.inl rfl
  | succ j ih =>
    by_cases h : text.getD (skip + j) 0 = pattern.getD j 0
    · rw [innerLoop, if_neg (by simpa using h)]
      rcases ih with h1 | ⟨k, hk, he, hne⟩
      · exact Or.inl h1
      · exact Or.inr ⟨k, Nat.lt_succ_of_lt hk, he, hne⟩
    · rw [innerLoop, if_pos (by simpa using h)]
      exact Or.inr ⟨j, Nat.lt_succ_self j, rfl, h⟩

/-! ### Matching and the substring relation -/

/-- A match at offset `s` exhibits the pattern as a substring of the text
    (with `s` characters before it). -/
lemma Substr_of_matchAt {text pattern : List Nat} {s : Nat}
    (hm : matchAt text pattern s) : Substr pattern text := by
  obtain ⟨hlen, hpt⟩ := hm
  have hslice : (text.drop s).take pattern.length = pattern := by
    apply List.ext_getElem
    · simp
      omega
    · intro i h1 h2
      have hi : i < pattern.length := h2
      have hsi : s + i < text.length := by omega
      rw [List.getElem_take, List.getElem_drop]
      have := hpt i hi
      rw [List.getD_eq_getElem text 0 hsi, List.getD_eq_getElem pattern 0 hi] at this
      exact this
  refine ⟨text.take s, text.drop (s + pattern.length), ?_⟩
  conv =>
    lhs
    rw [← List.take_append_drop s text,
      ← List.drop_take_append_drop text s pattern.length, hslice]
  rw [List.append_assoc]

/-- No offset strictly beyond `maxAlign = |text| - |pattern|` can carry a
    match: the pattern would overhang the text. -/
lemma no_match_past (text pattern : List Nat) (s : Nat)
    (h : (text.length : Int) - pattern.length < (s : Int)) :
    ¬ matchAt text pattern s := by
  intro hm
  have := hm.1
  omega

/-- Bad-character shift safety: when the scan sits at alignment `skip` with
    pattern position `k` exposing the bad character `text[skip + k]`, no
    alignment `skip + d` with `1 ≤ d` strictly below the proposed shift
    `k - table(badChar)` can carry a match: it would put an occurrence of
    the bad character in the pattern strictly to the right of its last
    occurrence. -/
lemma no_match_in_shift (text pattern : List Nat) (skip k d : Nat)
    (hk : k < pattern.length)
    (_hd1 : 1 ≤ d)
    (hd2 : (d : Int) <
      (k : Int) - badCharacterPreprocessing pattern (text.getD (skip + k) 0)) :
    ¬ matchAt text pattern (skip + d) := by
  intro hm
  have hL : -1 ≤ badCharacterPreprocessing pattern (text.getD (skip + k) 0) :=
    neg_one_le_badChar pattern (text.getD (skip + k) 0)
  have hdk : d ≤ k := by omega
  have hj : k - d < pattern.length := lt_of_le_of_lt (Nat.sub_le k d) hk
  have heq := hm.2 (k - d) hj
  have harith : skip + d + (k - d) = skip + k := by omega
  rw [harith] at heq
  have hle : ((k - d : Nat) : Int) ≤
      badCharacterPreprocessing pattern (text.getD (skip + k) 0) :=
    badChar_le pattern (text.getD (skip + k) 0) (k - d) hj heq.symm
  omega

/-! ### The outer scan loop -/

/-- Unfolding of one iteration whose loop condition holds, with the local
    variables `p` and `update` of the source inlined. -/
lemma searchLoop_step (text pattern : List Nat) (tab : Nat → Int)
    (maxSkip : Int) (fuel skip : Nat) (h : ¬ ((skip : Int) > maxSkip)) :
    searchLoop text pattern tab maxSkip (fuel + 1) skip =
      if innerLoop text pattern skip pattern.length < 0 then (skip : Int)
      else if innerLoop text pattern skip pattern.length -
          tab (text.getD
            (skip + (innerLoop text pattern skip pattern.length).toNat) 0) ≥ 1 then
        searchLoop text pattern tab maxSkip fuel
          (skip + (innerLoop text pattern skip pattern.length -
            tab (text.getD
              (skip + (innerLoop text pattern skip pattern.length).toNat) 0)).toNat)
      else
        searchLoop text pattern tab maxSkip fuel (skip + 1) := by
  rw [searchLoop, if_neg h]

/-- An iteration whose loop condition fails exits with `-1`. -/
lemma searchLoop_stop (text pattern : List Nat) (tab : Nat → Int)
    (maxSkip : Int) (fuel skip : Nat) (h : (skip : Int) > maxSkip) :
    searchLoop text pattern tab maxSkip (fuel + 1) skip = -1 := by
  rw [searchLoop, if_pos h]

/-- Once the alignment offset has moved past `maxAlign` and every earlier
    offset is known not to match, no offset matches at all. -/
lemma no_match_anywhere_of (text pattern : List Nat) (skip : Nat)
    (hgt : (text.length : Int) - pattern.length < (skip : Int))
    (hinv : ∀ s, s < skip → ¬ matchAt text pattern s) :
    ∀ s, ¬ matchAt text pattern s := by
  intro s hm
  by_cases hs : s < skip
  · exact hinv s hs hm
  · exact no_match_past text pattern s (by omega) hm

/-- Main loop invariant: started at an offset below which nothing matches,
    and with enough fuel to cover the remaining alignments, the outer loop
    returns `-1` when the pattern matches nowhere, and otherwise the first
    matching offset. -/
lemma searchLoop_spec (text pattern : List Nat) (fuel : Nat) :
    ∀ (skip : Nat),
      (text.length : Int) - pattern.length + 1 ≤ (skip : Int) + fuel →
      (∀ s, s < skip → ¬ matchAt text pattern s) →
      (searchLoop text pattern (badCharacterPreprocessing pattern)
          ((text.length : Int) - (pattern.length : Int)) fuel skip = -1 ∧
        ∀ s, ¬ matchAt text pattern s) ∨
      (∃ s : Nat,
        searchLoop text pattern (badCharacterPreprocessing pattern)
          ((text.length : Int) - (pattern.length : Int)) fuel skip = (s : Int) ∧
        matchAt text pattern s ∧ ∀ s2, s2 < s → ¬ matchAt text pattern s2) := by
  induction fuel with
  | zero =>
    intro skip hfuel hinv
    exact Or.inl ⟨rfl, no_match_anywhere_of text pattern skip (by omega) hinv⟩
  | succ fuel ih =>
    intro skip hfuel hinv
    by_cases hgt : (skip : Int) > (text.length : Int) - (pattern.length : Int)
    · rw [searchLoop_stop text pattern _ _ fuel skip hgt]
      exact Or.inl ⟨rfl, no_match_anywhere_of text pattern skip (by omega) hinv⟩
    · have hstep := searchLoop_step text pattern (badCharacterPreprocessing pattern)
        ((text.length : Int) - (pattern.length : Int)) fuel skip hgt
      rcases innerLoop_cases text pattern skip pattern.length with hin | ⟨k, hk, hin, hne⟩
      · -- the inner loop exhausted the pattern: the iteration reports `skip`
        rw [hin] at hstep
        rw [if_pos (by norm_num)] at hstep
        rw [hstep]
        have hmatch : matchAt text pattern skip :=
          ⟨by omega, (innerLoop_eq_neg_one_iff text pattern skip pattern.length).mp hin⟩
        exact Or.inr ⟨skip, rfl, hmatch, hinv⟩
      · -- mismatch at pattern position `k`: shift and recurse
        rw [hin] at hstep
        rw [if_neg (by omega), Int.toNat_natCast] at hstep
        set upd : Int :=
          (k : Int) - badCharacterPreprocessing pattern (text.getD (skip + k) 0) with hupd
        have hinv1 : ∀ s, s < skip + 1 → ¬ matchAt text pattern s := by
          intro s hs
          by_cases hs1 : s < skip
          · exact hinv s hs1
          · have hse : s = skip := by omega
            subst hse
            intro hm
            exact hne (hm.2 k hk)
        by_cases hge : upd ≥ 1
        · rw [if_pos hge] at hstep
          rw [hstep]
          apply ih (skip + upd.toNat) (by omega)
          intro s hs
          by_cases hs1 : s < skip + 1
          · exact hinv1 s hs1
          · have hd := no_match_in_shift text pattern skip k (s - skip) hk
              (by omega) (by omega)
            have he : skip + (s - skip) = s := by omega
            rwa [he] at hd
        · rw [if_neg hge] at hstep
          rw [hstep]
          exact ih (skip + 1) (by omega) hinv1

/-- Extra fuel beyond `maxAlign + 1 - skip` remaining iterations never
    changes the loop's value: the loop has stabilised by then, because
    every iteration advances `skip` by at least 1. -/
lemma searchLoop_fuel_irrelevant (text pattern : List Nat) (tab : Nat → Int)
    (maxSkip : Int) (fuel1 : Nat) :
    ∀ (fuel2 skip : Nat),
      maxSkip + 1 ≤ (skip : Int) + fuel1 → fuel1 ≤ fuel2 →
      searchLoop text pattern tab maxSkip fuel2 skip =
      searchLoop text pattern tab maxSkip fuel1 skip := by
  induction fuel1 with
  | zero =>
    intro fuel2 skip hfuel _
    have hgt : (skip : Int) > maxSkip := by omega
    cases fuel2 with
    | zero => rfl
    | succ fuel2 => exact searchLoop_stop text pattern tab maxSkip fuel2 skip hgt
  | succ fuel1 ih =>
    intro fuel2 skip hfuel hle
    obtain ⟨fuel3, rfl⟩ : ∃ f, fuel2 = f + 1 := ⟨fuel2 - 1, by omega⟩
    by_cases hgt : (skip : Int) > maxSkip
    · rw [searchLoop_stop text pattern tab maxSkip fuel3 skip hgt,
        searchLoop_stop text pattern tab maxSkip fuel1 skip hgt]
    · rw [searchLoop_step text pattern tab maxSkip fuel3 skip hgt,
        searchLoop_step text pattern tab maxSkip fuel1 skip hgt]
      rcases innerLoop_cases text pattern skip pattern.length with hin | ⟨k, _, hin, _⟩
      · rw [hin]
        norm_num
      · rw [hin]
        have hknn : ¬ ((k : Int) < 0) := by omega
        rw [if_neg hknn, if_neg hknn]
        simp only [Int.toNat_natCast]
        set u : Int := (k : Int) - tab (text.getD (skip + k) 0) with hu
        by_cases hC : u ≥ 1
        · rw [if_pos hC, if_pos hC]
          exact ih fuel3 (skip + u.toNat) (by omega) (by omega)
        · rw [if_neg hC, if_neg hC]
          exact ih fuel3 (skip + 1) (by omega) (by omega)

/-- `search()` is the outer loop started at offset 0 with `textSize + 1`
    units of fuel, once the empty-pattern guard has been passed. -/
lemma search_eq_loop (text pattern : List Nat) (hp : pattern ≠ []) :
    search text pattern =
      searchLoop text pattern (badCharacterPreprocessing pattern)
        ((text.length : Int) - (pattern.length : Int)) (text.length + 1) 0 := by
  have h : pattern.length ≠ 0 := by simpa using hp
  simp only [search, searchWithTable]
  rw [if_neg h]

/-- Full functional characterisation of `search()` for a nonempty pattern:
    it returns `-1` exactly when no offset matches, and the first matching
    offset otherwise. -/
lemma search_spec (text pattern : List Nat) (hp : pattern ≠ []) :
    (search text pattern = -1 ∧ ∀ s, ¬ matchAt text pattern s) ∨
    (∃ s : Nat, search text pattern = (s : Int) ∧ matchAt text pattern s ∧
      ∀ s2, s2 < s → ¬ matchAt text pattern s2) := by
  rw [search_eq_loop text pattern hp]
  exact searchLoop_spec text pattern (text.length + 1) 0 (by omega)
    (by intro s hs hm; omega)

/-! ### Claim theorems -/

/-- C1 counterexample (the claim as frozen): the empty pattern is a
    substring of the text `[7]` and 0 is the smallest offset at which
    `t[s : s+|p|] == p` holds, yet `search()` returns `-1`, not 0. -/
theorem search_first_occurrence_fails_for_empty_pattern :
    Substr [] [7] ∧ matchAt [7] [] 0 ∧ (∀ s2, s2 < 0 → ¬ matchAt [7] [] s2) ∧
    search [7] [] ≠ 0 := by
  refine ⟨⟨[], [7], rfl⟩, by decide, ?_, by decide⟩
  intro s2 hs2 _
  omega

/-- C1 (amended to nonempty patterns): for every text `t` and nonempty
    pattern `p`, if `s` is the smallest offset with `t[s : s+|p|] == p`
    then `search()` returns `s`. -/
theorem search_finds_first_occurrence (text pattern : List Nat) (s : Nat)
    (hp : pattern ≠ [])
    (hm : matchAt text pattern s)
    (hmin : ∀ s2, s2 < s → ¬ matchAt text pattern s2) :
    search text pattern = (s : Int) := by
  rcases search_spec text pattern hp with ⟨_, hno⟩ | ⟨s0, he, hm0, hmin0⟩
  · exact absurd hm (hno s)
  · rcases lt_trichotomy s0 s with h | h | h
    · exact absurd hm0 (hmin s0 h)
    · rw [he, h]
    · exact absurd hm (hmin0 s h)

/-- Witness for C1: on text `[1, 2, 2]` and pattern `[2]` the smallest
    matching offset is 1, and `search` returns 1. -/
theorem search_finds_first_occurrence_witness :
    (([2] : List Nat) ≠ [] ∧ matchAt [1, 2, 2] [2] 1 ∧
      (∀ s2, s2 < 1 → ¬ matchAt [1, 2, 2] [2] s2)) ∧
    search [1, 2, 2] [2] = (1 : Int) :=
  ⟨⟨by decide, by decide, by decide⟩,
    search_finds_first_occurrence [1, 2, 2] [2] 1 (by decide) (by decide) (by decide)⟩

/-- C2: for every text and pattern with the pattern not a substring of the
    text, `search()` returns the not-found value `-1`. -/
theorem search_not_found_when_absent (text pattern : List Nat)
    (h : ¬ Substr pattern text) :
    search text pattern = -1 := by
  have hp : pattern ≠ [] := by
    rintro rfl
    exact h ⟨[], text, rfl⟩
  rcases search_spec text pattern hp with ⟨he, _⟩ | ⟨s0, _, hm0, _⟩
  · exact he
  · exact absurd (Substr_of_matchAt hm0) h

/-- Witness for C2: `[2]` is not a substring of `[1]` and `search` returns
    `-1` there. -/
theorem search_not_found_when_absent_witness :
    ¬ Substr [2] [1] ∧ search [1] [2] = -1 := by
  have h : ¬ Substr [2] [1] := by
    rintro ⟨l, r, he⟩
    have h2 : (2 : Nat) ∈ ([1] : List Nat) := by
      rw [he]
      simp
    simp at h2
  exact ⟨h, search_not_found_when_absent [1] [2] h⟩

/-- C3 (code bug): at the failing input — a pattern whose first character
    is the byte `0xFF = 255` — the preprocessing write
    `m_lastOccurrences[m_pattern[0]] = 0` subscripts the 256-entry table
    with `-1`, which is not in `[0, 256)`. -/
theorem skip_table_index_out_of_bounds :
    preprocessingWriteIndex [255] 0 = -1 ∧
    ¬ tableIndexInBounds (preprocessingWriteIndex [255] 0) := by
  refine ⟨by decide, ?_⟩
  intro hb
  exact absurd hb.1 (by decide)

/-- C4: the scan terminates within at most `n - m + 1` alignment
    iterations: handing the outer loop `(n - m + 1)` units of fuel, plus
    any surplus, already yields the value of `search()`, because every
    iteration advances the alignment offset by at least 1. -/
theorem search_terminates_within_alignment_bound (text pattern : List Nat)
    (hp : pattern ≠ []) (extra : Nat) :
    searchLoop text pattern (badCharacterPreprocessing pattern)
      ((text.length : Int) - (pattern.length : Int))
      (((text.length : Int) - (pattern.length : Int) + 1).toNat + extra) 0
    = search text pattern := by
  rw [search_eq_loop text pattern hp]
  have h1 := searchLoop_fuel_irrelevant text pattern
    (badCharacterPreprocessing pattern)
    ((text.length : Int) - (pattern.length : Int))
    (((text.length : Int) - (pattern.length : Int) + 1).toNat)
    ((((text.length : Int) - (pattern.length : Int) + 1).toNat) + extra) 0
    (by omega) (by omega)
  have h2 := searchLoop_fuel_irrelevant text pattern
    (badCharacterPreprocessing pattern)
    ((text.length : Int) - (pattern.length : Int))
    (((text.length : Int) - (pattern.length : Int) + 1).toNat)
    (text.length + 1) 0 (by omega) (by omega)
  rw [h1, ← h2]

/-- Witness for C4: on text `[1, 2]` and pattern `[2]`, fuel
    `(n - m + 1) + 5` already gives the value of `search`. -/
theorem search_terminates_within_alignment_bound_witness :
    (([2] : List Nat) ≠ []) ∧
    searchLoop [1, 2] [2] (badCharacterPreprocessing [2])
      ((([1, 2] : List Nat).length : Int) - (([2] : List Nat).length : Int))
      (((([1, 2] : List Nat).length : Int) -
        (([2] : List Nat).length : Int) + 1).toNat + 5) 0
    = search [1, 2] [2] :=
  ⟨by decide, search_terminates_within_alignment_bound [1, 2] [2] (by decide) 5⟩

/-- C5: `search(newPattern)` overwrites the stored pattern and rebuilds the
    skip table from the new pattern before scanning, so its return value —
    and the return value of a subsequent plain `search()` on the same
    object — is the value appropriate to the new pattern, never one
    computed from a stale table. -/
theorem searchReplace_rebuilds_table (s : StringFinder) (q : List Nat) :
    (s.searchReplace q).1.m_pattern = q ∧
    (s.searchReplace q).1.m_lastOccurrences = badCharacterPreprocessing q ∧
    (s.searchReplace q).2 = search s.m_text q ∧
    ((s.searchReplace q).1).search = search s.m_text q :=
  ⟨rfl, rfl, rfl, rfl⟩

/-- C6: the empty pattern never matches: `search()` returns `-1` whenever
    the pattern length is 0, for every text including the empty one. -/
theorem search_empty_pattern_not_found (text pattern : List Nat)
    (hp : pattern.length = 0) :
    search text pattern = -1 := by
  simp only [search, searchWithTable]
  rw [if_pos hp]

/-- Witness for C6: the empty pattern is not found in `[5]`. -/
theorem search_empty_pattern_not_found_witness :
    (([] : List Nat).length = 0) ∧ search [5] [] = -1 :=
  ⟨rfl, search_empty_pattern_not_found [5] [] rfl⟩

/-- C7: a pattern longer than the text is never found: `search()` returns
    `-1` without reporting any match. -/
theorem search_pattern_longer_not_found (text pattern : List Nat)
    (h : text.length < pattern.length) :
    search text pattern = -1 := by
  have hp : pattern ≠ [] := by
    rintro rfl
    simp at h
  rw [search_eq_loop text pattern hp]
  exact searchLoop_stop text pattern (badCharacterPreprocessing pattern) _
    text.length 0 (by omega)

/-- Witness for C7: the two-character pattern `[2, 3]` is not found in the
    one-character text `[1]`. -/
theorem search_pattern_longer_not_found_witness :
    (([1] : List Nat).length < ([2, 3] : List Nat).length) ∧
    search [1] [2, 3] = -1 :=
  ⟨by decide, search_pattern_longer_not_found [1] [2, 3] (by decide)⟩

/-- C8: after construction and after every pattern replacement the skip
    table is exactly the one `badCharacterPreprocessing` builds, and for
    every byte value `b` its entry is the highest index at which `b`
    occurs in the current pattern, or `-1` when `b` does not occur. -/
theorem lastOccurrences_characterisation (t p : List Nat) (s : StringFinder)
    (b : Nat) (_hb : b < POSSIBLE_CHARACTERS) :
    (StringFinder.make t p).m_lastOccurrences = badCharacterPreprocessing p ∧
    ((s.searchReplace p).1).m_lastOccurrences = badCharacterPreprocessing p ∧
    ((badCharacterPreprocessing p b = -1 ∧
        ∀ i, i < p.length → p.getD i 0 ≠ b) ∨
      (∃ i, i < p.length ∧ p.getD i 0 = b ∧
        badCharacterPreprocessing p b = (i : Int) ∧
        ∀ j, j < p.length → i < j → p.getD j 0 ≠ b)) := by
  refine ⟨rfl, rfl, ?_⟩
  rcases badChar_cases p b with h | ⟨j, hj, hgd, he⟩
  · refine Or.inl ⟨h, ?_⟩
    intro i hi hgd
    have := badChar_le p b i hi hgd
    omega
  · refine Or.inr ⟨j, hj, hgd, he, ?_⟩
    intro j2 hj2 hlt hgd2
    have := badChar_le p b j2 hj2 hgd2
    omega

/-- Witness for C8: for the pattern `[97, 98, 97]` and byte 97, the table
    entry is the highest occurrence index 2. -/
theorem lastOccurrences_characterisation_witness :
    (StringFinder.make [] [97, 98, 97]).m_lastOccurrences =
      badCharacterPreprocessing [97, 98, 97] ∧
    (((StringFinder.make [] []).searchReplace [97, 98, 97]).1).m_lastOccurrences =
      badCharacterPreprocessing [97, 98, 97] ∧
    ((badCharacterPreprocessing [97, 98, 97] 97 = -1 ∧
        ∀ i, i < ([97, 98, 97] : List Nat).length →
          ([97, 98, 97] : List Nat).getD i 0 ≠ 97) ∨
      (∃ i, i < ([97, 98, 97] : List Nat).length ∧
        ([97, 98, 97] : List Nat).getD i 0 = 97 ∧
        badCharacterPreprocessing [97, 98, 97] 97 = (i : Int) ∧
        ∀ j, j < ([97, 98, 97] : List Nat).length → i < j →
          ([97, 98, 97] : List Nat).getD j 0 ≠ 97)) :=
  lastOccurrences_characterisation [] [97, 98, 97] (StringFinder.make [] [])
    97 (by decide)

/-- C9: `search()` has no side effects: the object state after a call is
    the state before it, and two consecutive calls with no intervening
    pattern change return equal values. -/
theorem search_idempotent_no_side_effects (s : StringFinder) :
    s.searchCall.1 = s ∧
    (s.searchCall.1).searchCall.2 = s.searchCall.2 :=
  ⟨rfl, rfl⟩

/-- C10: `search(newPattern)` leaves `m_text` unchanged — the resulting
    state differs from a freshly constructed one over the same text and
    new pattern in nothing — and plain `search()` changes no member at
    all, so every later search runs against the construction-time text. -/
theorem searchReplace_frame (s : StringFinder) (q : List Nat) :
    (s.searchReplace q).1.m_text = s.m_text ∧
    s.searchCall.1.m_text = s.m_text ∧
    (s.searchReplace q).1 = StringFinder.make s.m_text q ∧
    s.searchCall.1 = s :=
  ⟨rfl, rfl, rfl, rfl⟩

end BoyerMoore
